/-
Verification of the xvm-computing service (server front-end, checker test
logic, and flag templates) of the academy-ctf-challenges repository.

Conventions of the shallow embedding:
* Python `bytes` values are `List Nat` with every element below 256.
* Python `str` values are `List Char` (`Str` below); the paths and tokens
  handled by the server are ASCII, so `hashlib.sha256(s.encode())` is
  embedded as SHA-256 over `s.map Char.toNat`.
* `hashlib.sha256(...).hexdigest()` is embedded by the executable SHA-256
  implementation in namespace `SHA256` (FIPS 180-4), written with
  structural recursion only so that concrete hashes reduce in the kernel.
* Machine-word arithmetic is `Nat` with explicit reduction `% 2 ^ 32`
  (`m32`) and `% 256` where the source masks with `& 0xFF`.
-/
import Mathlib

set_option maxRecDepth 10000

abbrev Str := List Char

namespace SHA256

/-- Reduce modulo `2 ^ 32`: every SHA-256 word operation is `Nat`
arithmetic followed by this mask. -/
def m32 (x : Nat) : Nat := x % 4294967296

/-- Rotate the word `x` right by `n` bit positions. -/
def rotr (n x : Nat) : Nat := m32 ((x >>> n) ||| (x <<< (32 - n)))

/-- Bitwise complement of a 32-bit word. -/
def compl32 (x : Nat) : Nat := x ^^^ 4294967295

def ch (e f g : Nat) : Nat := (e &&& f) ^^^ (compl32 e &&& g)

def maj (a b c : Nat) : Nat := (a &&& b) ^^^ (a &&& c) ^^^ (b &&& c)

def bigSigma0 (a : Nat) : Nat := rotr 2 a ^^^ rotr 13 a ^^^ rotr 22 a

def bigSigma1 (e : Nat) : Nat := rotr 6 e ^^^ rotr 11 e ^^^ rotr 25 e

def smallSigma0 (x : Nat) : Nat := rotr 7 x ^^^ rotr 18 x ^^^ (x >>> 3)

def smallSigma1 (x : Nat) : Nat := rotr 17 x ^^^ rotr 19 x ^^^ (x >>> 10)

/-- The 64 round constants of FIPS 180-4 (fractional parts of the cube
roots of the first 64 primes), written in decimal. -/
def K : List Nat :=
  [1116352408, 1899447441, 3049323471, 3921009573, 961987163,
   1508970993, 2453635748, 2870763221, 3624381080, 310598401,
   607225278, 1426881987, 1925078388, 2162078206, 2614888103,
   3248222580, 3835390401, 4022224774, 264347078, 604807628,
   770255983, 1249150122, 1555081692, 1996064986, 2554220882,
   2821834349, 2952996808, 3210313671, 3336571891, 3584528711,
   113926993, 338241895, 666307205, 773529912, 1294757372,
   1396182291, 1695183700, 1986661051, 2177026350, 2456956037,
   2730485921, 2820302411, 3259730800, 3345764771, 3516065817,
   3600352804, 4094571909, 275423344, 430227734, 506948616,
   659060556, 883997877, 958139571, 1322822218, 1537002063,
   1747873779, 1955562222, 2024104815, 2227730452, 2361852424,
   2428436474, 2756734187, 3204031479, 3329325298]

/-- The starting hash state of FIPS 180-4 (fractional parts of the square
roots of the first 8 primes), written in decimal. -/
def initH : List Nat :=
  [1779033703, 3144134277, 1013904242, 2773480762,
   1359893119, 2600822924, 528734635, 1541459225]

/-- `n` big-endian bytes of `v`. -/
def beBytes (n v : Nat) : List Nat :=
  (List.range n).reverse.map (fun i => (v >>> (8 * i)) &&& 255)

/-- FIPS 180-4 padding: append `0x80`, zero bytes up to 56 mod 64, then the
bit length as 8 big-endian bytes. -/
def pad (msg : List Nat) : List Nat :=
  let L := msg.length
  let k := (55 + 64 - L % 64) % 64
  msg ++ [0x80] ++ List.replicate k 0 ++ beBytes 8 (L * 8)

/-- Collect big-endian 32-bit words from a byte list (length a multiple of
4 after padding); `acc`/`cnt` carry the partially assembled word. -/
def toWordsAux : List Nat → Nat → Nat → List Nat
  | [], _, _ => []
  | b :: rest, acc, cnt =>
      let acc2 := (acc <<< 8) ||| b
      if cnt = 3 then acc2 :: toWordsAux rest 0 0
      else toWordsAux rest acc2 (cnt + 1)

/-- Split a word list into blocks of 16 words (the accumulator holds the
current block reversed). -/
def chunk16 : List Nat → List Nat → List (List Nat)
  | [], acc => if acc.isEmpty then [] else [acc.reverse]
  | w :: rest, acc =>
      if acc.length = 15 then (w :: acc).reverse :: chunk16 rest []
      else chunk16 rest (w :: acc)

/-- Message-schedule extension: each step appends
`σ1(w[n-2]) + w[n-7] + σ0(w[n-15]) + w[n-16]` reduced mod `2 ^ 32`. -/
def extendSched : Nat → List Nat → List Nat
  | 0, ws => ws
  | fuel + 1, ws =>
      let n := ws.length
      let w := m32 (ws.getD (n - 16) 0 + smallSigma0 (ws.getD (n - 15) 0) +
        ws.getD (n - 7) 0 + smallSigma1 (ws.getD (n - 2) 0))
      extendSched fuel (ws ++ [w])

/-- The eight working variables of the compression loop. -/
structure St where
  a : Nat
  b : Nat
  c : Nat
  d : Nat
  e : Nat
  f : Nat
  g : Nat
  h : Nat

/-- One compression round fed with the pair `(W[i], K[i])`. -/
def roundStep (s : St) (wk : Nat × Nat) : St :=
  let t1 := m32 (s.h + bigSigma1 s.e + ch s.e s.f s.g + wk.2 + wk.1)
  let t2 := m32 (bigSigma0 s.a + maj s.a s.b s.c)
  ⟨m32 (t1 + t2), s.a, s.b, s.c, m32 (s.d + t1), s.e, s.f, s.g⟩

/-- Compress one 16-word block into the running hash state. -/
def compressBlock (hs : List Nat) (block : List Nat) : List Nat :=
  let ws := extendSched 48 block
  let s0 : St := ⟨hs.getD 0 0, hs.getD 1 0, hs.getD 2 0, hs.getD 3 0,
    hs.getD 4 0, hs.getD 5 0, hs.getD 6 0, hs.getD 7 0⟩
  let s := (ws.zip K).foldl roundStep s0
  [m32 (hs.getD 0 0 + s.a), m32 (hs.getD 1 0 + s.b), m32 (hs.getD 2 0 + s.c),
   m32 (hs.getD 3 0 + s.d), m32 (hs.getD 4 0 + s.e), m32 (hs.getD 5 0 + s.f),
   m32 (hs.getD 6 0 + s.g), m32 (hs.getD 7 0 + s.h)]

/-- SHA-256 digest (32 bytes) of a byte string. -/
def sha256bytes (msg : List Nat) : List Nat :=
  let blocks := chunk16 (toWordsAux (pad msg) 0 0) []
  let hs := blocks.foldl compressBlock initH
  (hs.map (beBytes 4)).flatten

/-- Lowercase hex digit. -/
def hexChar (n : Nat) : Char := "0123456789abcdef".data.getD n '0'

/-- Two lowercase hex digits of a byte, as in Python's `%02x`. -/
def byteToHex (b : Nat) : List Char := [hexChar (b / 16), hexChar (b % 16)]

/-- Lowercase hex rendering of a byte string (Python's `.hexdigest()`). -/
def hexOfBytes (bs : List Nat) : List Char := (bs.map byteToHex).flatten

/-- `hashlib.sha256(s.encode()).hexdigest()` for an ASCII string `s`. -/
def sha256hex (s : Str) : Str := hexOfBytes (sha256bytes (s.map Char.toNat))

/-- Regression against the FIPS test vector for the empty message. -/
example : sha256hex [] =
    "e3b0c44298fc1c149afbf4c8996fb92427ae41e4649b934ca495991b7852b855".data := by
  decide

/-- Regression against the FIPS test vector for "abc". -/
example : sha256hex "abc".data =
    "ba7816bf8f01cfea414140de5dae2223b00361a396177a9cb410ff61f20015ad".data := by
  decide

end SHA256

namespace Server

open SHA256

/-
Model of src/xvm-computing/server.py.

The program store (STORE_DIR = "/tmp/data") is modelled as the list of the
paths of the files it holds, in the order `os.walk` yields them.  A path is
a `Str`; file contents are only needed for `upload`, which writes them.
-/

/-- Outcome of one `upload()` call (server.py, `upload`).  `rejected` means
the size gate fired: "Err" was printed and `exit()` ran before
`tempfile.mkstemp` created any file and before any payload byte was read.
`stored` means the store file at `path` was created and holds `content`,
and `token` was printed.  `readFault` covers a negative declared size: the
file was created empty and then `os.read(0, sz)` raised `OSError`
(negative count), so no token was printed and no payload byte arrived. -/
inductive UploadResult
  | rejected
  | stored (path : Str) (content : List Nat) (token : Str)
  | readFault (path : Str)
  deriving DecidableEq

/-- Embedding of `upload()` (server.py).  `sz = int(input(...))` may be any
integer; `if sz >= 4096: print("Err"); exit()`; otherwise `mkstemp`
creates the file at `path`, `os.write(fd, os.read(0, sz))` copies at most
`sz` stdin bytes into it, and the printed token is
`hashlib.sha256(path.encode()).hexdigest()` — the hash of the PATH the
store chose, not of the uploaded bytes. -/
def upload (path : Str) (sz : Int) (stdin : List Nat) : UploadResult :=
  if 4096 ≤ sz then .rejected
  else if sz < 0 then .readFault path
  else .stored path (stdin.take sz.toNat) (sha256hex path)

/-- The token `upload()` prints for a file stored at `path`. -/
def uploadToken (path : Str) : Str := sha256hex path

/-- Embedding of `get_save_file(token)` (server.py): walk the store and
return the first file whose path hashes (sha256 hex of the path string) to
the token; `None` when no stored path matches. -/
def get_save_file (store : List Str) (token : Str) : Option Str :=
  store.find? (fun p => sha256hex p == token)

/-- Observable host actions of `run()` / `info()` in order. -/
inductive Action
  | printErr
  | breakpointCall
  | exitCall
  | execBin (cmd : Str) (file : Str)
  deriving DecidableEq

/-- Embedding of `run()` (server.py): unknown token prints "Err" and exits
before any binary is spawned; a known token executes `./xvm <file>`. -/
def run (store : List Str) (token : Str) : List Action :=
  match get_save_file store token with
  | none => [.printErr, .exitCall]
  | some f => [.execBin "./xvm".data f]

/-- Embedding of `info()` (server.py): unknown token prints "Err", then
calls `breakpoint()` (dropping the caller into pdb), then exits; a known
token executes `./xinfo <file>`. -/
def info (store : List Str) (token : Str) : List Action :=
  match get_save_file store token with
  | none => [.printErr, .breakpointCall, .exitCall]
  | some f => [.execBin "./xinfo".data f]

/-- Result of `menu()` (server.py): `int(input())` failing to parse lands
in the `except` branch, which prints "Err" and exits cleanly; otherwise
the parsed integer is returned. -/
inductive MenuResult
  | errExit
  | choice (c : Int)
  deriving DecidableEq

/-- Embedding of `menu()`; the argument is the result of parsing the input
line as a Python `int` (`none` = parse failure). -/
def menu (parsed : Option Int) : MenuResult :=
  match parsed with
  | none => .errExit
  | some c => .choice c

/-- One entry of `functions = [None, upload, run, info, sys.exit]` in
`main()` (server.py). -/
inductive DispatchEntry
  | noneEntry
  | uploadFn
  | runFn
  | infoFn
  | sysExitFn
  deriving DecidableEq

/-- The dispatch table of `main()`. -/
def functions : List DispatchEntry :=
  [.noneEntry, .uploadFn, .runFn, .infoFn, .sysExitFn]

/-- Python list indexing `l[i]`: a nonnegative index counts from the
front, a negative index counts from the back (`l[-1]` is the last
element); anything else raises `IndexError` (`none` here). -/
def pyIndex {α : Type} (l : List α) (i : Int) : Option α :=
  if 0 ≤ i then
    if i < (l.length : Int) then l.get? i.toNat else none
  else
    if -(l.length : Int) ≤ i then l.get? ((l.length : Int) + i).toNat else none

/-- What `functions[choice]()` in `main()` does for an integer choice. -/
inductive DispatchOutcome
  | indexError
  | typeErrorNotCallable
  | called (f : DispatchEntry)
  deriving DecidableEq

/-- Embedding of the dispatch `functions[choice]()` in `main()`
(server.py): an out-of-range index raises an unhandled `IndexError`; index
0 yields `None`, and `None()` raises an unhandled `TypeError`; every other
in-range index calls the selected function. -/
def dispatch (choice : Int) : DispatchOutcome :=
  match pyIndex functions choice with
  | none => .indexError
  | some .noneEntry => .typeErrorNotCallable
  | some f => .called f

/-- `true` iff `functions[choice]()` neither raises `IndexError` nor
`TypeError`, i.e. the service does not die with an unhandled exception. -/
def dispatchSucceeds (choice : Int) : Bool :=
  match dispatch choice with
  | .called _ => true
  | _ => false

end Server

namespace Server

/-- The token printed by an upload, when one was printed. -/
def tokenOf : UploadResult → Option Str
  | .rejected => none
  | .readFault _ => none
  | .stored _ _ t => some t

/-- `true` on the actions that spawn a binary (`exec_bin`). -/
def isExec : Action → Bool
  | .execBin _ _ => true
  | _ => false

/-- The binary-spawning actions among a trace. -/
def execsOf (acts : List Action) : List Action := acts.filter isExec

/-- `pyIndex` misses exactly outside `[-len, len)`. -/
theorem pyIndex_none {α : Type} (l : List α) (i : Int)
    (h : i < -(l.length : Int) ∨ (l.length : Int) ≤ i) : pyIndex l i = none := by
  unfold pyIndex
  rcases h with h | h
  · rw [if_neg (by omega : ¬ (0:Int) ≤ i), if_neg (by omega)]
  · rw [if_pos (by omega : (0:Int) ≤ i), if_neg (by omega)]

/-- Dispatch on an index outside `[-5, 4]` raises an `IndexError`. -/
theorem dispatch_out_of_range (c : Int) (h : c < -5 ∨ 4 < c) :
    dispatch c = .indexError := by
  have hl : functions.length = 5 := rfl
  unfold dispatch
  rw [pyIndex_none functions c (by omega)]

end Server

/-- C1: the claim that the upload token is a content-address (equal
payloads receive equal tokens) is FALSE: the token is
`sha256(path)` of the mkstemp path, so the same 4-byte payload uploaded
to the two store paths below yields two different tokens. -/
theorem c1_counterexample :
    Server.upload "/tmp/data/tmpaaaaaaaa.xvm".data 4 [88, 86, 77, 10] =
      Server.UploadResult.stored "/tmp/data/tmpaaaaaaaa.xvm".data [88, 86, 77, 10]
        (Server.uploadToken "/tmp/data/tmpaaaaaaaa.xvm".data) ∧
    Server.upload "/tmp/data/tmpbbbbbbbb.xvm".data 4 [88, 86, 77, 10] =
      Server.UploadResult.stored "/tmp/data/tmpbbbbbbbb.xvm".data [88, 86, 77, 10]
        (Server.uploadToken "/tmp/data/tmpbbbbbbbb.xvm".data) ∧
    Server.uploadToken "/tmp/data/tmpaaaaaaaa.xvm".data ≠
      Server.uploadToken "/tmp/data/tmpbbbbbbbb.xvm".data := by
  refine ⟨by decide, by decide, by decide⟩

/-- C1 (amended): the token is a function of the chosen store path only —
never of the uploaded bytes: a successful upload's token is the SHA-256
hex digest of its mkstemp path, and the tokens of two successful uploads
coincide exactly when their paths' digests coincide, regardless of the
declared sizes and payloads. -/
theorem c1_token_is_path_address (p1 p2 : Str) (sz1 sz2 : Int)
    (in1 in2 : List Nat) (h1 : 0 ≤ sz1 ∧ sz1 < 4096) (h2 : 0 ≤ sz2 ∧ sz2 < 4096) :
    Server.tokenOf (Server.upload p1 sz1 in1) = some (SHA256.sha256hex p1) ∧
    (Server.tokenOf (Server.upload p1 sz1 in1) =
        Server.tokenOf (Server.upload p2 sz2 in2) ↔
      SHA256.sha256hex p1 = SHA256.sha256hex p2) := by
  have e1 : Server.upload p1 sz1 in1 =
      .stored p1 (in1.take sz1.toNat) (SHA256.sha256hex p1) := by
    unfold Server.upload
    rw [if_neg (by omega), if_neg (by omega)]
  have e2 : Server.upload p2 sz2 in2 =
      .stored p2 (in2.take sz2.toNat) (SHA256.sha256hex p2) := by
    unfold Server.upload
    rw [if_neg (by omega), if_neg (by omega)]
  rw [e1, e2]
  exact ⟨rfl, by simp [Server.tokenOf]⟩

/-- Witness for the amended C1 at two concrete uploads. -/
theorem c1_token_is_path_address_witness :
    Server.tokenOf (Server.upload "/tmp/data/tmpaaaaaaaa.xvm".data 3 [1, 2, 3]) =
      some (SHA256.sha256hex "/tmp/data/tmpaaaaaaaa.xvm".data) ∧
    (Server.tokenOf (Server.upload "/tmp/data/tmpaaaaaaaa.xvm".data 3 [1, 2, 3]) =
        Server.tokenOf (Server.upload "/tmp/data/tmpbbbbbbbb.xvm".data 2 [9, 9]) ↔
      SHA256.sha256hex "/tmp/data/tmpaaaaaaaa.xvm".data =
        SHA256.sha256hex "/tmp/data/tmpbbbbbbbb.xvm".data) :=
  c1_token_is_path_address "/tmp/data/tmpaaaaaaaa.xvm".data
    "/tmp/data/tmpbbbbbbbb.xvm".data 3 2 [1, 2, 3] [9, 9]
    (by constructor <;> decide) (by constructor <;> decide)

/-- C2: a declared size of at least 4096 makes `upload` print "Err" and
exit before the store file is created and before any payload byte is read
(outcome `rejected`, store untouched); for a declared size below 4096 the
freshly created file holds `os.read(0, sz)`, hence at most `sz` payload
bytes. -/
theorem c2_upload_size_gate (path : Str) (stdin : List Nat) :
    (∀ sz : Int, 4096 ≤ sz → Server.upload path sz stdin = .rejected) ∧
    (∀ sz : Nat, sz < 4096 →
      Server.upload path (sz : Int) stdin =
        .stored path (stdin.take sz) (SHA256.sha256hex path) ∧
      (stdin.take sz).length ≤ sz) := by
  constructor
  · intro sz h
    unfold Server.upload
    rw [if_pos h]
  · intro sz h
    have e : Server.upload path (sz : Int) stdin =
        .stored path (stdin.take sz) (SHA256.sha256hex path) := by
      unfold Server.upload
      rw [if_neg (by omega), if_neg (by omega), Int.toNat_natCast]
    exact ⟨e, by rw [List.length_take]; omega⟩

/-- Witness for C2: a size-4096 upload is rejected, a size-2 upload of a
3-byte stdin stores exactly 2 bytes. -/
theorem c2_upload_size_gate_witness :
    Server.upload "/tmp/data/tmpcccccccc.xvm".data 4096 [65] =
      Server.UploadResult.rejected ∧
    (Server.upload "/tmp/data/tmpcccccccc.xvm".data ((2 : Nat) : Int) [65, 66, 67] =
      .stored "/tmp/data/tmpcccccccc.xvm".data ([65, 66, 67].take 2)
        (SHA256.sha256hex "/tmp/data/tmpcccccccc.xvm".data) ∧
      ([65, 66, 67].take 2).length ≤ 2) :=
  ⟨(c2_upload_size_gate "/tmp/data/tmpcccccccc.xvm".data [65]).1 4096 (by decide),
   (c2_upload_size_gate "/tmp/data/tmpcccccccc.xvm".data [65, 66, 67]).2 2 (by decide)⟩

/-- C3: uploading stores a file and prints the SHA-256 of its path; as
long as no other stored path has the same digest (SHA-256 collisions in
one store directory), `get_save_file` applied to that token walks the
store and returns exactly the uploaded file, so execute-after-upload
selects the uploaded program. -/
theorem c3_upload_execute_roundtrip (store : List Str) (path : Str)
    (hmem : path ∈ store)
    (hinj : ∀ q ∈ store, SHA256.sha256hex q = SHA256.sha256hex path → q = path) :
    Server.get_save_file store (Server.uploadToken path) = some path := by
  induction store with
  | nil => cases hmem
  | cons p rest ih =>
    by_cases hp : (SHA256.sha256hex p == SHA256.sha256hex path) = true
    · have hpe : p = path := hinj p (List.mem_cons_self p rest) (beq_iff_eq.mp hp)
      unfold Server.get_save_file Server.uploadToken
      rw [List.find?_cons_of_pos]
      · rw [hpe]
      · exact hp
    · have hpath : path ∈ rest := by
        rcases List.mem_cons.mp hmem with rfl | hr
        · exact absurd (beq_iff_eq.mpr rfl) hp
        · exact hr
      have hrest := ih hpath (fun q hq hs => hinj q (List.mem_cons_of_mem p hq) hs)
      unfold Server.get_save_file Server.uploadToken at hrest ⊢
      rw [List.find?_cons_of_neg]
      · exact hrest
      · exact hp

/-- Witness for C3 on a two-file store, retrieving the second file by the
token its upload printed. -/
theorem c3_upload_execute_roundtrip_witness :
    ("/tmp/data/tmpbbbbbbbb.xvm".data ∈
      ["/tmp/data/tmpaaaaaaaa.xvm".data, "/tmp/data/tmpbbbbbbbb.xvm".data]) ∧
    Server.get_save_file
      ["/tmp/data/tmpaaaaaaaa.xvm".data, "/tmp/data/tmpbbbbbbbb.xvm".data]
      (Server.uploadToken "/tmp/data/tmpbbbbbbbb.xvm".data) =
      some "/tmp/data/tmpbbbbbbbb.xvm".data :=
  ⟨by decide,
   c3_upload_execute_roundtrip
     ["/tmp/data/tmpaaaaaaaa.xvm".data, "/tmp/data/tmpbbbbbbbb.xvm".data]
     "/tmp/data/tmpbbbbbbbb.xvm".data (by decide) (by decide)⟩

/-- C4: on a token matching no stored file, `run` prints "Err" and exits;
its trace is exactly print-then-exit and spawns no binary, so rejection
happens before any program image reaches the VM. -/
theorem c4_unknown_token_no_execution (store : List Str) (token : Str)
    (h : Server.get_save_file store token = none) :
    Server.run store token = [.printErr, .exitCall] ∧
    Server.execsOf (Server.run store token) = [] := by
  have hr : Server.run store token = [.printErr, .exitCall] := by
    unfold Server.run
    rw [h]
  exact ⟨hr, by rw [hr]; rfl⟩

/-- Witness for C4 on the empty store and an arbitrary token. -/
theorem c4_unknown_token_no_execution_witness :
    Server.get_save_file [] "ffff".data = none ∧
    Server.run [] "ffff".data = [.printErr, .exitCall] ∧
    Server.execsOf (Server.run [] "ffff".data) = [] :=
  ⟨rfl, (c4_unknown_token_no_execution [] "ffff".data rfl).1,
   (c4_unknown_token_no_execution [] "ffff".data rfl).2⟩

/-- C9: on an unknown token, `info` prints "Err", then invokes the
interactive debugger (`breakpoint()`), then exits, while `run` on the
same token exits immediately after "Err": the two error traces differ. -/
theorem c9_info_run_error_paths_differ (store : List Str) (token : Str)
    (h : Server.get_save_file store token = none) :
    Server.info store token = [.printErr, .breakpointCall, .exitCall] ∧
    Server.run store token = [.printErr, .exitCall] ∧
    Server.info store token ≠ Server.run store token := by
  have hi : Server.info store token = [.printErr, .breakpointCall, .exitCall] := by
    unfold Server.info
    rw [h]
  have hr : Server.run store token = [.printErr, .exitCall] := by
    unfold Server.run
    rw [h]
  refine ⟨hi, hr, ?_⟩
  rw [hi, hr]
  simp

/-- Witness for C9 on the empty store. -/
theorem c9_info_run_error_paths_differ_witness :
    Server.info [] "ffff".data = [.printErr, .breakpointCall, .exitCall] ∧
    Server.run [] "ffff".data = [.printErr, .exitCall] ∧
    Server.info [] "ffff".data ≠ Server.run [] "ffff".data :=
  c9_info_run_error_paths_differ [] "ffff".data rfl

/-- C10: the claim that the dispatch is total ONLY for choices 1..4 is
FALSE: Python's negative indexing makes choice -1 select `sys.exit`
(the last table entry), which is callable — the dispatch succeeds at an
integer outside 1..4. -/
theorem c10_counterexample :
    Server.dispatch (-1) = .called .sysExitFn ∧
    Server.dispatchSucceeds (-1) = true ∧
    ¬ ((1 : Int) ≤ -1 ∧ (-1 : Int) ≤ 4) := by
  refine ⟨by decide, by decide, by decide⟩

/-- C10 (amended): non-integer input makes `menu` print "Err" and exit
cleanly; the dispatch `functions[choice]()` succeeds exactly for the
integer choices -4..4 other than 0 (negative indexes reach the table from
the back, so -1 is `sys.exit` and -4 is `upload`); choices 0 and -5 both
invoke the non-callable `None` entry (`TypeError`), and any choice at
least 5 or at most -6 indexes out of range (`IndexError`), so those
integer inputs kill the service with an unhandled exception rather than
the "Err" path. -/
theorem c10_dispatch_totality_amended :
    Server.menu Option.none = .errExit ∧
    (∀ c : Int, Server.dispatchSucceeds c = true ↔ (-4 ≤ c ∧ c ≤ 4 ∧ c ≠ 0)) ∧
    Server.dispatch 0 = .typeErrorNotCallable ∧
    Server.dispatch (-5) = .typeErrorNotCallable ∧
    (∀ c : Int, 5 ≤ c → Server.dispatch c = .indexError) ∧
    (∀ c : Int, c ≤ -6 → Server.dispatch c = .indexError) := by
  refine ⟨rfl, ?_, by decide, by decide, ?_, ?_⟩
  · intro c
    by_cases hlo : -5 ≤ c
    · by_cases hhi : c ≤ 4
      · interval_cases c <;> decide
      · have hd := Server.dispatch_out_of_range c (Or.inr (by omega))
        simp [Server.dispatchSucceeds, hd]
        omega
    · have hd := Server.dispatch_out_of_range c (Or.inl (by omega))
      simp [Server.dispatchSucceeds, hd]
      omega
  · intro c hc
    exact Server.dispatch_out_of_range c (Or.inr (by omega))
  · intro c hc
    exact Server.dispatch_out_of_range c (Or.inl (by omega))

/-- Witness for the amended C10 at choice 2 (the Execute entry). -/
theorem c10_dispatch_totality_amended_witness :
    Server.dispatchSucceeds 2 = true ∧
    ((-4 : Int) ≤ 2 ∧ (2 : Int) ≤ 4 ∧ (2 : Int) ≠ 0) :=
  ⟨((c10_dispatch_totality_amended.2.1 2).mpr (by decide)), by decide⟩

namespace Checker

/-
Model of the xor-io service check: `_test_xor_io` in
src/xvm-computing/checker.py, exercising the program built by
`build_xor_io_program` in src/xvm-computing/checker/service_checks.py.
The checker draws `secret` and `inp` (`os.urandom`) and reads the run's
output `out`; all three are passed here explicitly.
-/

/-- Embedding of the expected value computed by `_test_xor_io`
(checker.py): `expected = bytes(a ^ b for a, b in zip(secret, inp))`. -/
def xorIoExpected (secret inp : List Nat) : List Nat :=
  List.zipWith (fun a b => a ^^^ b) secret inp

/-- Embedding of the verdict of `_test_xor_io` (checker.py): FAULTY when
the run produced no output (`if not out`), FAULTY when `expected not in
out` (Python bytes containment is contiguous-substring), OK otherwise. -/
def xorIoPasses (secret inp out : List Nat) : Bool :=
  !out.isEmpty && decide (xorIoExpected secret inp <:+: out)

end Checker

/-- C5: for a secret and an input of the same positive length, the value
the xor-io check accepts is exactly the bytewise XOR of secret and input
(elementwise `secret[i] XOR input[i]`), and the check passes precisely
when that byte string occurs contiguously in the run's output. -/
theorem c5_xor_io_check (secret inp out : List Nat)
    (hlen : inp.length = secret.length) (hN : 0 < secret.length) :
    (∀ i, i < secret.length →
      (Checker.xorIoExpected secret inp).getD i 0 =
        secret.getD i 0 ^^^ inp.getD i 0) ∧
    (Checker.xorIoPasses secret inp out = true ↔
      Checker.xorIoExpected secret inp <:+: out) := by
  have hle : (Checker.xorIoExpected secret inp).length = secret.length := by
    simp [Checker.xorIoExpected, hlen]
  constructor
  · intro i hi
    have h1 : i < (Checker.xorIoExpected secret inp).length := by omega
    have h2 : i < inp.length := by omega
    rw [List.getD_eq_getElem _ 0 h1, List.getD_eq_getElem _ 0 hi,
      List.getD_eq_getElem _ 0 h2]
    simp [Checker.xorIoExpected]
  · unfold Checker.xorIoPasses
    constructor
    · intro h
      have := (Bool.and_eq_true _ _).mp h
      exact of_decide_eq_true this.2
    · intro h
      have hout : out ≠ [] := by
        intro he
        have hl2 := h.length_le
        rw [he, List.length_nil] at hl2
        omega
      rw [Bool.and_eq_true]
      exact ⟨by simpa using hout, decide_eq_true h⟩

/-- Witness for C5: secret [1, 2], input [3, 4], output [0, 2, 6, 9];
the expected string [2, 6] occurs in the output and the check passes. -/
theorem c5_xor_io_check_witness :
    ([3, 4] : List Nat).length = ([1, 2] : List Nat).length ∧
    0 < ([1, 2] : List Nat).length ∧
    (Checker.xorIoExpected [1, 2] [3, 4]).getD 0 0 =
      ([1, 2] : List Nat).getD 0 0 ^^^ ([3, 4] : List Nat).getD 0 0 ∧
    (Checker.xorIoPasses [1, 2] [3, 4] [0, 2, 6, 9] = true ↔
      Checker.xorIoExpected [1, 2] [3, 4] <:+: [0, 2, 6, 9]) :=
  ⟨by decide, by decide,
   (c5_xor_io_check [1, 2] [3, 4] [0, 2, 6, 9] (by decide) (by decide)).1 0
     (by decide),
   (c5_xor_io_check [1, 2] [3, 4] [0, 2, 6, 9] (by decide) (by decide)).2⟩

namespace FlagTemplates

/-
Model of src/xvm-computing/flag_templates.py.  Each template draws its
key with `random`; the key is passed here explicitly.  The encoded byte
string `enc` is the payload each template embeds in the generated
program's `.data` section via `_bytes_dir(enc)`.
-/

/-- Embedding of the encoding in `tpl_xor_const` (flag_templates.py):
`enc = bytes(b ^ key for b in flag.encode() + b"\n")` with
`key = random.randint(1, 255)`. -/
def tplXorConstEnc (flag : List Nat) (key : Nat) : List Nat :=
  (flag ++ [10]).map (fun b => b ^^^ key)

/-- Embedding of the encoding in `tpl_xor_10byte_key` (flag_templates.py):
`enc = bytes(b ^ key_bytes[i % 10] for i, b in enumerate(flag_nl))` with
`key_bytes = bytes(random.randint(1, 255) for _ in range(10))`. -/
def tplXor10Enc (flag : List Nat) (keyBytes : List Nat) : List Nat :=
  (flag ++ [10]).mapIdx (fun i b => b ^^^ keyBytes.getD (i % 10) 0)

/-- Embedding of `_fib_mod256` (flag_templates.py): start from
`a, b = 0, 1` and iterate `a, b = b, (a + b) & 0xFF` (the mask embedded
as mod 256); the pair after `i` steps. -/
def fibPair : Nat → Nat × Nat
  | 0 => (0, 1)
  | i + 1 => ((fibPair i).2, ((fibPair i).1 + (fibPair i).2) % 256)

/-- `_fib_mod256(i)`: the first component after `i` iterations. -/
def fibMod256 (i : Nat) : Nat := (fibPair i).1

/-- Embedding of the encoding in `tpl_xor_fib` (flag_templates.py):
`enc = bytes((b ^ _fib_mod256(i)) & 0xFF for i, b in enumerate(flag_nl))`. -/
def tplXorFibEnc (flag : List Nat) : List Nat :=
  (flag ++ [10]).mapIdx (fun i b => (b ^^^ fibMod256 i) % 256)

/-- Both components of `fibPair` stay below 256. -/
theorem fibPair_lt (i : Nat) : (fibPair i).1 < 256 ∧ (fibPair i).2 < 256 := by
  induction i with
  | zero => decide
  | succ n ih => exact ⟨ih.2, Nat.mod_lt _ (by omega)⟩

/-- Decoding a constant-key XOR map recovers the original byte. -/
theorem getD_map_xor (l : List Nat) (k i : Nat) (hi : i < l.length) :
    (l.map (fun b => b ^^^ k)).getD i 0 ^^^ k = l.getD i 0 := by
  have h1 : i < (l.map (fun b => b ^^^ k)).length := by simpa using hi
  rw [List.getD_eq_getElem _ 0 h1, List.getD_eq_getElem _ 0 hi,
    List.getElem_map]
  exact Nat.xor_cancel_right _ _

/-- Decoding the rolling 10-byte-key XOR recovers the original byte. -/
theorem getD_mapIdx_xor (l key10 : List Nat) (i : Nat) (hi : i < l.length) :
    (l.mapIdx (fun j b => b ^^^ key10.getD (j % 10) 0)).getD i 0 ^^^
      key10.getD (i % 10) 0 = l.getD i 0 := by
  have h1 : i < (l.mapIdx (fun j b => b ^^^ key10.getD (j % 10) 0)).length := by
    simpa using hi
  rw [List.getD_eq_getElem _ 0 h1, List.getD_eq_getElem _ 0 hi,
    List.getElem_mapIdx]
  exact Nat.xor_cancel_right _ _

/-- Decoding the Fibonacci-keystream XOR recovers the original byte (the
`& 0xFF` in the encoder is the identity because both operands are
bytes). -/
theorem getD_mapIdx_fib (l : List Nat) (hl : ∀ b ∈ l, b < 256) (i : Nat)
    (hi : i < l.length) :
    (l.mapIdx (fun j b => (b ^^^ fibMod256 j) % 256)).getD i 0 ^^^
      fibMod256 i = l.getD i 0 := by
  have h1 : i < (l.mapIdx (fun j b => (b ^^^ fibMod256 j) % 256)).length := by
    simpa using hi
  rw [List.getD_eq_getElem _ 0 h1, List.getD_eq_getElem _ 0 hi,
    List.getElem_mapIdx]
  have hb : l[i] < 2 ^ 8 := by
    have := hl _ (List.getElem_mem hi)
    omega
  have hf : fibMod256 i < 2 ^ 8 := by
    have := (fibPair_lt i).1
    simp [fibMod256] at this ⊢
    omega
  have hx : l[i] ^^^ fibMod256 i < 256 := by
    have := Nat.xor_lt_two_pow hb hf
    omega
  rw [Nat.mod_eq_of_lt hx, Nat.xor_cancel_right]

end FlagTemplates

/-- C8: each of the three flag templates embeds an encoded string `enc`
with `enc[i] XOR k_i = (flag + newline)[i]` for every index, where `k_i`
is the constant key, `keyBytes[i mod 10]`, or `_fib_mod256(i)`; the
latter satisfies the Fibonacci recurrence mod 256 with F0 = 0, F1 = 1.
Decoding therefore recovers exactly the flag followed by a newline. -/
theorem c8_flag_templates_decode (flag : List Nat) (key : Nat)
    (keyBytes : List Nat) (hflag : ∀ b ∈ flag, b < 256) :
    (∀ i, i < (flag ++ [10]).length →
      (FlagTemplates.tplXorConstEnc flag key).getD i 0 ^^^ key =
        (flag ++ [10]).getD i 0) ∧
    (∀ i, i < (flag ++ [10]).length →
      (FlagTemplates.tplXor10Enc flag keyBytes).getD i 0 ^^^
          keyBytes.getD (i % 10) 0 =
        (flag ++ [10]).getD i 0) ∧
    (∀ i, i < (flag ++ [10]).length →
      (FlagTemplates.tplXorFibEnc flag).getD i 0 ^^^
          FlagTemplates.fibMod256 i =
        (flag ++ [10]).getD i 0) ∧
    (FlagTemplates.fibMod256 0 = 0 ∧ FlagTemplates.fibMod256 1 = 1 ∧
      ∀ i, FlagTemplates.fibMod256 (i + 2) =
        (FlagTemplates.fibMod256 i + FlagTemplates.fibMod256 (i + 1)) % 256) := by
  have hnl : ∀ b ∈ flag ++ [10], b < 256 := by
    intro b hb
    rcases List.mem_append.mp hb with h | h
    · exact hflag b h
    · simp at h
      omega
  refine ⟨?_, ?_, ?_, rfl, rfl, fun i => rfl⟩
  · exact fun i hi => FlagTemplates.getD_map_xor (flag ++ [10]) key i hi
  · exact fun i hi => FlagTemplates.getD_mapIdx_xor (flag ++ [10]) keyBytes i hi
  · exact fun i hi => FlagTemplates.getD_mapIdx_fib (flag ++ [10]) hnl i hi

/-- Witness for C8 at flag "AB" (bytes [65, 66]), constant key 7, and the
10-byte key [1, ..., 10], checked at index 0. -/
theorem c8_flag_templates_decode_witness :
    (FlagTemplates.tplXorConstEnc [65, 66] 7).getD 0 0 ^^^ 7 =
      (([65, 66] : List Nat) ++ [10]).getD 0 0 ∧
    (FlagTemplates.tplXor10Enc [65, 66] [1, 2, 3, 4, 5, 6, 7, 8, 9, 10]).getD 0 0 ^^^
        ([1, 2, 3, 4, 5, 6, 7, 8, 9, 10] : List Nat).getD (0 % 10) 0 =
      (([65, 66] : List Nat) ++ [10]).getD 0 0 ∧
    (FlagTemplates.tplXorFibEnc [65, 66]).getD 2 0 ^^^ FlagTemplates.fibMod256 2 =
      (([65, 66] : List Nat) ++ [10]).getD 2 0 :=
  ⟨(c8_flag_templates_decode [65, 66] 7 [1, 2, 3, 4, 5, 6, 7, 8, 9, 10]
     (by decide)).1 0 (by decide),
   (c8_flag_templates_decode [65, 66] 7 [1, 2, 3, 4, 5, 6, 7, 8, 9, 10]
     (by decide)).2.1 0 (by decide),
   (c8_flag_templates_decode [65, 66] 7 [1, 2, 3, 4, 5, 6, 7, 8, 9, 10]
     (by decide)).2.2.1 2 (by decide)⟩

namespace ServiceChecks

/-
Model of src/xvm-computing/checker/service_checks.py.  A generated
assembly source is embedded as the list of its lines (the Python builders
concatenate newline-terminated fragments; the lines below are exactly the
lines of the concatenation).  Numbers interpolated by f-strings are
rendered by `natToDec` (decimal) and `formatByte` (the `#0x{b:02x}` byte
directive of `_bytes_dir`).
-/

/-- Decimal rendering of a natural number, most significant digit first,
as Python's f-string interpolation of an int; fuel-driven so that it
reduces in the kernel (`natToDec` supplies fuel `n + 1`). -/
def natToDecAux : Nat → Nat → List Char
  | 0, _ => []
  | fuel + 1, n =>
      if n < 10 then [SHA256.hexChar n]
      else natToDecAux fuel (n / 10) ++ [SHA256.hexChar (n % 10)]

/-- Python's decimal rendering of a nonnegative int. -/
def natToDec (n : Nat) : List Char := natToDecAux (n + 1) n

/-- Value of a digit string, most significant digit first. -/
def decVal (cs : List Char) : Nat :=
  cs.foldl (fun a c => a * 10 + (c.toNat - 48)) 0

/-- Parse a nonempty all-digit string back to its value (as Python's
`int(...)` on a nonnegative decimal literal). -/
def parseDec (cs : List Char) : Option Nat :=
  if cs.isEmpty then none
  else if cs.all Char.isDigit then some (decVal cs) else none

/-- Embedding of the byte directive `f"#0x\x7bb:02x\x7d"` used by
`_bytes_dir` (service_checks.py): `#0x` followed by the two lowercase hex
digits of a byte. -/
def formatByte (b : Nat) : List Char :=
  '#' :: '0' :: 'x' :: SHA256.byteToHex b

/-- Embedding of `_bytes_dir` (service_checks.py):
`", ".join(f"#0x\x7bb:02x\x7d" for b in data)`. -/
def bytesDir : List Nat → List Char
  | [] => []
  | [b] => formatByte b
  | b :: b2 :: rest => formatByte b ++ ',' :: ' ' :: bytesDir (b2 :: rest)

/-- Split a character list at every comma (the inverse direction of the
comma-joined byte directives). -/
def splitComma : List Char → List (List Char)
  | [] => [[]]
  | c :: rest =>
      if c = ',' then [] :: splitComma rest
      else
        match splitComma rest with
        | [] => [[c]]
        | p :: ps => (c :: p) :: ps

/-- Value of a lowercase hex digit character, if it is one. -/
def hexVal (c : Char) : Option Nat :=
  (List.range 16).find? (fun d => SHA256.hexChar d == c)

/-- Parse one `#0xHH` byte directive (ignoring the leading space the
`", "` separator puts in front of every piece after the first). -/
def parseByteDir (cs : List Char) : Option Nat :=
  match cs.dropWhile (fun c => c == ' ') with
  | '#' :: '0' :: 'x' :: [h1, h2] =>
      match hexVal h1, hexVal h2 with
      | some a, some b => some (a * 16 + b)
      | _, _ => none
  | _ => none

/-- Parse every comma-separated piece as a byte directive. -/
def parseAll : List (List Char) → Option (List Nat)
  | [] => some []
  | p :: ps =>
      match parseByteDir p, parseAll ps with
      | some b, some bs => some (b :: bs)
      | _, _ => none

/-- Parse a whole `_bytes_dir` payload back to its bytes. -/
def parseBytesDir (cs : List Char) : Option (List Nat) :=
  parseAll (splitComma cs)

/-- Digit characters produced for values below 10 are decimal digits with
the expected value. -/
theorem hexChar_digit : ∀ d, d < 10 →
    Char.isDigit (SHA256.hexChar d) = true ∧ (SHA256.hexChar d).toNat - 48 = d := by
  decide

/-- With enough fuel, `natToDecAux` emits only digits and `decVal`
inverts it. -/
theorem natToDecAux_spec (fuel : Nat) : ∀ n, n < 10 ^ fuel →
    (natToDecAux fuel n).all Char.isDigit = true ∧
      decVal (natToDecAux fuel n) = n := by
  induction fuel with
  | zero =>
    intro n h
    have hn : n = 0 := by
      have : n < 1 := by simpa using h
      omega
    subst hn
    exact ⟨rfl, rfl⟩
  | succ f ih =>
    intro n h
    by_cases h10 : n < 10
    · rw [natToDecAux, if_pos h10]
      obtain ⟨hd, hv⟩ := hexChar_digit n h10
      refine ⟨by simp [hd], ?_⟩
      simp [decVal, hv]
    · rw [natToDecAux, if_neg h10]
      have hdiv : n / 10 < 10 ^ f := by
        rw [Nat.div_lt_iff_lt_mul (by omega)]
        calc n < 10 ^ (f + 1) := h
        _ = 10 ^ f * 10 := by rw [Nat.pow_succ]
      obtain ⟨iha, ihv⟩ := ih (n / 10) hdiv
      obtain ⟨hd, hv⟩ := hexChar_digit (n % 10) (Nat.mod_lt _ (by omega))
      constructor
      · rw [List.all_append]
        simp [iha, hd]
      · rw [decVal, List.foldl_append]
        have : (natToDecAux f (n / 10)).foldl
            (fun a c => a * 10 + (c.toNat - 48)) 0 = n / 10 := ihv
        simp only [List.foldl_cons, List.foldl_nil, this, hv]
        omega

/-- With nonzero fuel the rendering is nonempty. -/
theorem natToDecAux_ne_nil (f n : Nat) : natToDecAux (f + 1) n ≠ [] := by
  rw [natToDecAux]
  split
  · simp
  · simp

/-- A natural is below `10 ^ (n + 1)`. -/
theorem lt_ten_pow_succ (n : Nat) : n < 10 ^ (n + 1) := by
  calc n < 2 ^ n := Nat.lt_two_pow n
  _ ≤ 10 ^ n := Nat.pow_le_pow_left (by omega) n
  _ ≤ 10 ^ (n + 1) := Nat.pow_le_pow_right (by omega) (by omega)

/-- Parsing inverts the decimal rendering. -/
theorem parseDec_natToDec (n : Nat) : parseDec (natToDec n) = some n := by
  obtain ⟨ha, hv⟩ := natToDecAux_spec (n + 1) n (lt_ten_pow_succ n)
  rw [natToDec, parseDec, if_neg, if_pos ha, hv]
  simpa using natToDecAux_ne_nil n n

/-- Parsing inverts the byte directive, with or without the separator's
leading space. -/
theorem parseByteDir_formatByte : ∀ b, b < 256 →
    parseByteDir (formatByte b) = some b ∧
      parseByteDir (' ' :: formatByte b) = some b := by
  decide

/-- Byte directives contain no comma. -/
theorem formatByte_comma_free : ∀ b, b < 256 → ∀ c ∈ formatByte b, c ≠ ',' := by
  decide

/-- Splitting a comma-free list is the identity. -/
theorem splitComma_nocomma (l : List Char) (h : ∀ c ∈ l, c ≠ ',') :
    splitComma l = [l] := by
  induction l with
  | nil => rfl
  | cons c rest ih =>
    rw [splitComma, if_neg (h c (List.mem_cons_self c rest)),
      ih (fun c hc => h c (List.mem_cons_of_mem _ hc))]

/-- Splitting after a comma-free prefix peels that prefix off. -/
theorem splitComma_append (l1 l2 : List Char) (h : ∀ c ∈ l1, c ≠ ',') :
    splitComma (l1 ++ ',' :: l2) = l1 :: splitComma l2 := by
  induction l1 with
  | nil => simp [splitComma]
  | cons c rest ih =>
    rw [List.cons_append, splitComma,
      if_neg (h c (List.mem_cons_self c rest)),
      ih (fun c hc => h c (List.mem_cons_of_mem _ hc))]

/-- Parsing inverts `_bytes_dir` on nonempty byte strings (both bare and
with the leading space left by the `", "` separator). -/
theorem parseBytesDir_bytesDir : ∀ (data : List Nat),
    (∀ b ∈ data, b < 256) → data ≠ [] →
    parseBytesDir (bytesDir data) = some data ∧
      parseAll (splitComma (' ' :: bytesDir data)) = some data := by
  intro data
  induction data with
  | nil => intro _ hne; exact absurd rfl hne
  | cons b rest ih =>
    intro hlt _
    have hb : b < 256 := hlt b (List.mem_cons_self b rest)
    have hfree := formatByte_comma_free b hb
    have hsfree : ∀ c ∈ ' ' :: formatByte b, c ≠ ',' := by
      intro c hc
      rcases List.mem_cons.mp hc with rfl | hc2
      · decide
      · exact hfree c hc2
    obtain ⟨hp, hps⟩ := parseByteDir_formatByte b hb
    cases rest with
    | nil =>
      constructor
      · rw [parseBytesDir, bytesDir, splitComma_nocomma _ hfree]
        simp [parseAll, hp]
      · rw [bytesDir, splitComma_nocomma _ hsfree]
        simp [parseAll, hps]
    | cons b2 rest2 =>
      obtain ⟨ih1, ih2⟩ :=
        ih (fun x hx => hlt x (List.mem_cons_of_mem _ hx)) (by simp)
      constructor
      · rw [parseBytesDir, bytesDir, splitComma_append _ _ hfree]
        simp [parseAll, hp, ih2]
      · rw [bytesDir,
          show ' ' :: (formatByte b ++ ',' :: ' ' :: bytesDir (b2 :: rest2)) =
            (' ' :: formatByte b) ++ ',' :: ' ' :: bytesDir (b2 :: rest2)
            from rfl,
          splitComma_append _ _ hsfree]
        simp [parseAll, hps, ih2]

/-- Lines of `_prelude()` (service_checks.py). -/
def preludeLines : List Str := [".section .text".data, "_start:".data]

/-- Lines of `_write_func()` (service_checks.py). -/
def writeFuncLines : List Str :=
  ["write:".data, "\tpush\t$bp".data, "\tmov\t$bp, $sp".data,
   "\tmov\t$r0, #0x1".data, "\tsyscall".data, "\tmov\t$sp, $bp".data,
   "\tpop\t$bp".data, "\tret".data]

/-- Embedding of `build_print_marker_program(marker)` (service_checks.py)
as the lines of the generated assembly: prologue, a write of
`n = len(marker + b"\n")` bytes from `msg`, the write helper, and a
`.data` section whose `msg` payload is `_bytes_dir(marker + b"\n")`. -/
def build_print_marker_program (marker : List Nat) : List Str :=
  let marker_nl := marker ++ [10]
  let n := marker_nl.length
  preludeLines ++
  [("\tmov\t$r5, #".data ++ natToDec n),
   "\tmov\t$r2, msg".data,
   "\tmov\t$r1, #0x1".data,
   "\tcall\twrite".data,
   "\thlt".data,
   "".data] ++ writeFuncLines ++
  ["".data, ".section .data".data, "msg:".data,
   ("\t.db ".data ++ bytesDir marker_nl)]

/-- The byte payload of the first `.db` directive of a program: the bytes
its data section embeds. -/
def dbPayload (lines : List Str) : Option (List Nat) :=
  match lines.find? (fun l => l.take 5 == "\t.db ".data) with
  | some l => parseBytesDir (l.drop 5)
  | none => none

/-- The immediate loaded into `$r5` (the requested write length) by the
first `mov $r5, #...` instruction of a program. -/
def r5Imm (lines : List Str) : Option Nat :=
  match lines.find? (fun l => l.take 11 == "\tmov\t$r5, #".data) with
  | some l => parseDec (l.drop 11)
  | none => none

/-- Modelled from the spec: the VM interpreter (the `xvm` binary run by
the server) is not in src; per the spec, "execute ... streams the
program's syscall-WRITE output back to the caller", so a correct run of
one of these straight-line writer programs outputs the first `r5Imm`
bytes of the `.db` payload — the single WRITE the program requests. -/
def correctRunOutput (lines : List Str) : Option (List Nat) :=
  match dbPayload lines, r5Imm lines with
  | some payload, some n => some (payload.take n)
  | _, _ => none

/-- A label-definition line: `name:` starting at column 0 (instructions
start with a tab, directives with a dot). -/
def isLabelLine (l : Str) : Bool :=
  match l with
  | [] => false
  | c :: _ => !(c == '\t') && !(c == '.') && (l.getLast? == some ':')

/-- Modelled from the spec: the assembler (`xasm`, invoked by the checker
with `-d` for debug builds) is a compiled binary not present in src; per
the spec, pass 1 records every label definition and debug mode "emits
the Symbol Table in declaration order, one entry per label, independent
of whether the label is referenced".  The symbol names of a debug-mode
assembly are therefore the label definitions of the source, in line
order. -/
def labelDefs (lines : List Str) : List Str :=
  lines.filterMap (fun l => if isLabelLine l then some l.dropLast else none)

/-- Embedding of the body of `build_debug_symbols_program`
(service_checks.py) after clamping: `_start`, one reference
`mov $r6, sym<i>` per label, `hlt`, the write helper, and one data label
`sym<i>:` with a one-byte `.db` per symbol. -/
def build_debug_symbols_core (clamped : Nat) : List Str :=
  preludeLines ++
  (List.range clamped).map (fun i => "\tmov\t$r6, sym".data ++ natToDec i) ++
  ["\thlt".data, "".data] ++ writeFuncLines ++
  ["".data, ".section .data".data] ++
  ((List.range clamped).map (fun i =>
    [("sym".data ++ natToDec i ++ [':']),
     "\t.db ".data ++ formatByte i])).flatten

/-- Embedding of `build_debug_symbols_program(symbol_count)`
(service_checks.py): the count is clamped to 1..10
(`min(max(symbol_count, 1), 10)`) before generation. -/
def build_debug_symbols_program (symbol_count : Nat) : List Str :=
  build_debug_symbols_core (min (max symbol_count 1) 10)

/-- Label scan of the generated program, for every clamped count. -/
theorem labelDefs_core : ∀ n, n < 11 → 1 ≤ n →
    labelDefs (build_debug_symbols_core n) =
      ["_start".data, "write".data] ++
        (List.range n).map (fun i => "sym".data ++ natToDec i) ∧
    (labelDefs (build_debug_symbols_core n)).length = n + 2 ∧
    (labelDefs (build_debug_symbols_core n)).Nodup := by
  decide

/-- The symbol scan ignores instruction lines entirely: deleting every
line that starts with a tab (all code, in particular every label
reference) leaves the label list unchanged. -/
theorem labelDefs_filter_instr (ls : List Str) :
    labelDefs (ls.filter (fun l => !(l.head? == some '\t'))) = labelDefs ls := by
  induction ls with
  | nil => rfl
  | cons l rest ih =>
    simp only [labelDefs] at ih ⊢
    rw [List.filter_cons]
    by_cases h : (l.head? == some '\t') = true
    · have hlab : isLabelLine l = false := by
        cases l with
        | nil => simp at h
        | cons c cs =>
          have hc : c = '\t' := by simpa using h
          subst hc
          simp [isLabelLine]
      rw [if_neg (by simp [h])]
      simpa [List.filterMap_cons, hlab] using ih
    · rw [if_pos (by simpa using h)]
      simp only [List.filterMap_cons]
      rw [ih]

end ServiceChecks

/-- C6: for every requested count, a debug-mode assembly of the generated
debug-symbols program yields a symbol table listing exactly the labels
the program declares — `_start`, `write`, then `sym0..sym(k-1)` for the
clamped count k — in declaration order, with k + 2 entries and no
duplicate; and the scan is independent of reference instructions: erasing
every instruction line (all lines starting with a tab, in particular
every `mov $r6, sym<i>` reference) leaves the symbol list of any program
unchanged. -/
theorem c6_debug_symbol_table (symbol_count : Nat) :
    ServiceChecks.labelDefs
        (ServiceChecks.build_debug_symbols_program symbol_count) =
      ["_start".data, "write".data] ++
        (List.range (min (max symbol_count 1) 10)).map
          (fun i => "sym".data ++ ServiceChecks.natToDec i) ∧
    (ServiceChecks.labelDefs
        (ServiceChecks.build_debug_symbols_program symbol_count)).length =
      min (max symbol_count 1) 10 + 2 ∧
    (ServiceChecks.labelDefs
        (ServiceChecks.build_debug_symbols_program symbol_count)).Nodup ∧
    (∀ ls : List Str,
      ServiceChecks.labelDefs
          (ls.filter (fun l => !(l.head? == some '\t'))) =
        ServiceChecks.labelDefs ls) := by
  have hlt : min (max symbol_count 1) 10 < 11 := by omega
  have hge : 1 ≤ min (max symbol_count 1) 10 := by omega
  obtain ⟨h1, h2, h3⟩ :=
    ServiceChecks.labelDefs_core (min (max symbol_count 1) 10) hlt hge
  exact ⟨h1, h2, h3, ServiceChecks.labelDefs_filter_instr⟩

/-- C7: the print-marker program embeds exactly `marker + "\n"` as its
`.db` data payload, loads exactly `len(marker) + 1` into `$r5` as the
requested write length, and hence a correct run (which streams that
write) outputs exactly `marker + "\n"`, which contains the byte sequence
`marker + "\n"`. -/
theorem c7_print_marker_program (marker : List Nat)
    (hm : ∀ b ∈ marker, b < 256) :
    ServiceChecks.dbPayload
        (ServiceChecks.build_print_marker_program marker) =
      some (marker ++ [10]) ∧
    ServiceChecks.r5Imm (ServiceChecks.build_print_marker_program marker) =
      some (marker.length + 1) ∧
    ServiceChecks.correctRunOutput
        (ServiceChecks.build_print_marker_program marker) =
      some (marker ++ [10]) ∧
    marker ++ [10] <:+: marker ++ [10] := by
  have hnl : ∀ b ∈ marker ++ [10], b < 256 := by
    intro b hb
    rcases List.mem_append.mp hb with h | h
    · exact hm b h
    · simp at h
      omega
  have hne : marker ++ [10] ≠ [] := by simp
  have e1 : ServiceChecks.dbPayload
      (ServiceChecks.build_print_marker_program marker) =
      ServiceChecks.parseBytesDir
        (ServiceChecks.bytesDir (marker ++ [10])) := rfl
  have e2 : ServiceChecks.r5Imm
      (ServiceChecks.build_print_marker_program marker) =
      ServiceChecks.parseDec
        (ServiceChecks.natToDec ((marker ++ [10]).length)) := rfl
  have h1 : ServiceChecks.dbPayload
      (ServiceChecks.build_print_marker_program marker) =
      some (marker ++ [10]) := by
    rw [e1]
    exact (ServiceChecks.parseBytesDir_bytesDir _ hnl hne).1
  have h2 : ServiceChecks.r5Imm
      (ServiceChecks.build_print_marker_program marker) =
      some (marker.length + 1) := by
    rw [e2, ServiceChecks.parseDec_natToDec]
    congr 1
    simp
  refine ⟨h1, h2, ?_, List.infix_refl _⟩
  unfold ServiceChecks.correctRunOutput
  rw [h1, h2]
  have htake : (marker ++ [10]).take (marker.length + 1) = marker ++ [10] := by
    have hlen2 : (marker ++ [10]).length = marker.length + 1 := by simp
    rw [← hlen2, List.take_length]
  show some ((marker ++ [10]).take (marker.length + 1)) = some (marker ++ [10])
  rw [htake]

/-- Witness for C7 at the marker "Hi" (bytes [72, 105]). -/
theorem c7_print_marker_program_witness :
    ServiceChecks.dbPayload
        (ServiceChecks.build_print_marker_program [72, 105]) =
      some [72, 105, 10] ∧
    ServiceChecks.r5Imm
        (ServiceChecks.build_print_marker_program [72, 105]) = some 3 ∧
    ServiceChecks.correctRunOutput
        (ServiceChecks.build_print_marker_program [72, 105]) =
      some [72, 105, 10] ∧
    ([72, 105] : List Nat) ++ [10] <:+: [72, 105] ++ [10] :=
  c7_print_marker_program [72, 105] (by decide)
